import Mathlib

/-!
# Verification of the cosmo pin-board application

Shallow embedding of the save/collection relationship model (`routes.py`,
`models.py`) and the storage backends (`filesystem_storage.py`,
`cloudinary_storage.py`, `supabase_client.py`), with theorems settling the
specification claims about them.

Conventions of the embedding:
* Database rows become Lean structures; timestamp columns and free-text
  content columns (titles, descriptions of posts) are elided because no
  operation modelled here reads them.
* SQLAlchemy queries over a table become `List.find?` / `List.filter` over
  the corresponding list of rows, in the order rows were inserted
  (autoincrement ids are modelled by explicit `next…Id` counters starting
  at 1, as in SQLite).
* Python string truthiness (`if not x`) is modelled explicitly: a JSON
  field that is absent or `0` is falsy, an environment variable that is
  absent or `""` is falsy.
* External effects (the Cloudinary SDK call, the raw HTTP fallback, the
  filesystem write) are modelled by parameters carrying their outcome,
  while the functions additionally report how many provider / fallback
  calls they performed.
-/

namespace Cosmo

/-! ## Filename handling (`filesystem_storage.py` and `cloudinary_storage.py`)

Both storage modules define the same `ALLOWED_EXTENSIONS` set and the same
pair of helpers (`allowed_file` / `is_allowed_file` and `get_file_type`);
they are embedded once here. -/

/-- `ALLOWED_EXTENSIONS = {'jpg', 'jpeg', 'png', 'gif', 'mp4', 'mov', 'webm'}`. -/
def ALLOWED_EXTENSIONS : List String := ["jpg", "jpeg", "png", "gif", "mp4", "mov", "webm"]

/-- Python `filename.rsplit('.', 1)`: a one-element list when `filename`
contains no `'.'`, otherwise the two pieces on either side of the *last*
`'.'`. -/
def rsplitDot (s : String) : List String :=
  match s.data.reverse.dropWhile (fun c => c != '.') with
  | [] => [s]
  | _ :: pre =>
      [String.mk pre.reverse, String.mk (s.data.reverse.takeWhile (fun c => c != '.')).reverse]

/-- Python `filename.rsplit('.', 1)[1]`: `none` models the `IndexError`
raised when the split produced only one piece (no dot in the name). -/
def lastExt (s : String) : Option String := (rsplitDot s)[1]?

/-- Python `str.lower()`, as a character-wise map (adequate for the ASCII
extension strings it is compared against here). -/
def pyLower (s : String) : String := String.mk (s.data.map Char.toLower)

/-- `allowed_file` (= `CloudinaryStorage.is_allowed_file`):
`'.' in filename and filename.rsplit('.', 1)[1].lower() in ALLOWED_EXTENSIONS`.
The short-circuiting `and` means the subscript is only evaluated when a dot
is present, so the function itself never raises. -/
def allowed_file (filename : String) : Bool :=
  filename.data.contains '.' &&
    (match lastExt filename with
     | some ext => ALLOWED_EXTENSIONS.contains (pyLower ext)
     | none => false)

/-- A Python exception escaping one of the embedded functions. -/
inductive PyExn
  | indexError
  deriving DecidableEq, Repr

instance {ε α : Type} [DecidableEq ε] [DecidableEq α] : DecidableEq (Except ε α) := fun a b =>
  match a, b with
  | .error x, .error y =>
      if h : x = y then .isTrue (congrArg Except.error h)
      else .isFalse (fun hc => h (Except.error.inj hc))
  | .ok x, .ok y =>
      if h : x = y then .isTrue (congrArg Except.ok h)
      else .isFalse (fun hc => h (Except.ok.inj hc))
  | .error _, .ok _ => .isFalse (fun hc => Except.noConfusion hc)
  | .ok _, .error _ => .isFalse (fun hc => Except.noConfusion hc)

/-- `get_file_type` (= `CloudinaryStorage.get_file_type`): reads
`filename.rsplit('.', 1)[1].lower()` *unconditionally*, so a filename
without a dot raises `IndexError`; otherwise returns `'image'`, `'video'`
or `None` according to the extension. -/
def get_file_type (filename : String) : Except PyExn (Option String) :=
  match lastExt filename with
  | none => .error .indexError
  | some ext =>
    let e := pyLower ext
    if ["jpg", "jpeg", "png", "gif"].contains e then .ok (some "image")
    else if ["mp4", "mov", "webm"].contains e then .ok (some "video")
    else .ok none

/-- The classification function as the specification words it
(for the refinement comparison of claim C4): image / video by extension,
`none` for anything else *including a filename with no extension*, never
an exception. -/
def classifySpec (filename : String) : Option String :=
  match lastExt filename with
  | none => none
  | some ext =>
    let e := pyLower ext
    if ["jpg", "jpeg", "png", "gif"].contains e then some "image"
    else if ["mp4", "mov", "webm"].contains e then some "video"
    else none

/-- Which branch of `filesystem_storage.save_file` produced its result.
`notAllowed`, `unknownType` and `errorCaught` all surface to the caller as
the failure value `(None, None)`; `saved` carries the returned
`(url_path, file_type)` pair. -/
inductive SaveFileOutcome
  | notAllowed
  | unknownType
  | errorCaught
  | saved (url_path : String) (file_type : String)
  deriving DecidableEq, Repr

/-- `filesystem_storage.save_file`. `secure_name` stands for werkzeug's
`secure_filename`, and `writeOk` for the success of the filesystem write
(a failed write raises inside the `try`, landing in the `except` branch).
The branch structure is the source's: reject disallowed names, reject an
unclassifiable type, otherwise write under `images/` or `videos/` and
return the public path. -/
def save_file (secure_name : String → String) (writeOk : Bool)
    (original_filename : String) (custom_filename : Option String) : SaveFileOutcome :=
  if !allowed_file original_filename then .notAllowed
  else
    match get_file_type original_filename with
    | .error _ => .errorCaught
    | .ok none => .unknownType
    | .ok (some ft) =>
      let secure := secure_name (custom_filename.getD original_filename)
      let subfolder := if ft == "image" then "images" else "videos"
      if writeOk then .saved ("/static/uploads/" ++ subfolder ++ "/" ++ secure) ft
      else .errorCaught

/-! ## Relational data model (`models.py`)

Timestamp columns (`created_at`, `saved_at`), password hashes and profile
fields are elided: no embedded operation reads them. Content columns of
`Post` (title, description, urls) are likewise elided. -/

structure User where
  id : Nat
  username : String
  email : String
  deriving DecidableEq, Repr

structure Post where
  id : Nat
  user_id : Nat
  deriving DecidableEq, Repr

structure Collection where
  id : Nat
  name : String
  description : String
  user_id : Nat
  deriving DecidableEq, Repr

structure Save where
  id : Nat
  post_id : Nat
  collection_id : Nat
  deriving DecidableEq, Repr

/-- The database: one list per table, in insertion order, plus the
autoincrement counters (SQLite autoincrement starts at 1). -/
structure DB where
  users : List User
  posts : List Post
  collections : List Collection
  saves : List Save
  nextUserId : Nat
  nextPostId : Nat
  nextCollectionId : Nat
  nextSaveId : Nat
  deriving DecidableEq, Repr

def initDB : DB := ⟨[], [], [], [], 1, 1, 1, 1⟩

/-! ## API operations (`routes.py`) -/

inductive RegisterResult
  | missingFields
  | shortPassword
  | usernameTaken
  | emailTaken
  | success
  deriving DecidableEq, Repr

/-- The `POST /register` handler: validates the three fields, rejects a
duplicate username or email, then inserts the `User` row followed by that
user's eagerly-created default collection
`Collection(name="Saved", description="Your saved pins")`. -/
def register (db : DB) (username email password : String) : RegisterResult × DB :=
  if username == "" || email == "" || password == "" then (.missingFields, db)
  else if password.length < 8 then (.shortPassword, db)
  else if db.users.any (fun usr => usr.username == username) then (.usernameTaken, db)
  else if db.users.any (fun usr => usr.email == email) then (.emailTaken, db)
  else
    let uid := db.nextUserId
    let db1 : DB := { db with users := db.users ++ [⟨uid, username, email⟩],
                              nextUserId := uid + 1 }
    let cid := db1.nextCollectionId
    (.success, { db1 with
                 collections := db1.collections ++ [⟨cid, "Saved", "Your saved pins", uid⟩],
                 nextCollectionId := cid + 1 })

/-- A successful `POST /upload` inserts one `Post` row for the logged-in
user (the storage interaction is modelled separately below). -/
def createPost (db : DB) (u : Nat) : DB :=
  { db with posts := db.posts ++ [⟨db.nextPostId, u⟩], nextPostId := db.nextPostId + 1 }

/-- `Collection.query.filter_by(user_id=u, name="Saved")`. -/
def savedPred (u : Nat) (c : Collection) : Bool :=
  c.user_id == u && c.name == "Saved"

/-- The lazy default-collection block inside `save_post`: look the user's
`"Saved"` collection up; if absent, insert and commit one, and use the new
row's id. Returns the resolved collection id with the (possibly updated)
database. -/
def ensureDefaultCollection (db : DB) (u : Nat) : Nat × DB :=
  match db.collections.find? (savedPred u) with
  | some d => (d.id, db)
  | none =>
      let cid := db.nextCollectionId
      (cid, { db with
              collections := db.collections ++ [⟨cid, "Saved", "Your saved pins", u⟩],
              nextCollectionId := cid + 1 })

/-- `if not collection_id:` — the JSON field is falsy when absent or `0`
(Python truthiness); a falsy value routes to the default collection. -/
def resolveTarget (db : DB) (u : Nat) (cid : Option Nat) : Nat × DB :=
  match cid with
  | none => ensureDefaultCollection db u
  | some c => if c == 0 then ensureDefaultCollection db u else (c, db)

inductive SaveApiResult
  | notFoundPost
  | notFoundCollection
  | unauthorized
  | conflict
  | success
  deriving DecidableEq, Repr

/-- The tail of `save_post` once the target collection id is resolved:
`Collection.query.get_or_404`, the ownership check, the duplicate check,
and the insertion. -/
def savePostResolved (u p c : Nat) (db1 : DB) : SaveApiResult × DB :=
  match db1.collections.find? (fun col => col.id == c) with
  | none => (.notFoundCollection, db1)
  | some col =>
      if col.user_id == u then
        match db1.saves.find? (fun s => s.post_id == p && s.collection_id == c) with
        | some _ => (.conflict, db1)
        | none =>
            (.success, { db1 with
                         saves := db1.saves ++ [⟨db1.nextSaveId, p, c⟩],
                         nextSaveId := db1.nextSaveId + 1 })
      else (.unauthorized, db1)

/-- The `POST /api/save/<post_id>` handler (`save_post` in `routes.py`):
404 on a missing post, resolve the target collection (lazily creating the
default one), 404 on a missing collection, 403 when the collection is not
the caller's, 400 when a `Save` for the `(post, collection)` pair already
exists, otherwise insert the `Save` row. -/
def savePost (db : DB) (u p : Nat) (cid : Option Nat) : SaveApiResult × DB :=
  match db.posts.find? (fun q => q.id == p) with
  | none => (.notFoundPost, db)
  | some _ =>
    let rc := resolveTarget db u cid
    savePostResolved u p rc.1 rc.2

inductive UnsaveApiResult
  | notFoundCollection
  | unauthorized
  | notSaved
  | success
  deriving DecidableEq, Repr

/-- `Save.query.join(Collection).filter(Save.post_id == p, Collection.user_id == u)`:
a save of post `p` sitting in some collection owned by `u`. -/
def joinedSaveMatch (db : DB) (u p : Nat) (s : Save) : Bool :=
  s.post_id == p && db.collections.any (fun c => c.id == s.collection_id && c.user_id == u)

/-- The no-`collection_id` branch of `unsave_post`: delete every save of
the post across all of the caller's collections; 404 when none matched. -/
def unsaveAllForUser (db : DB) (u p : Nat) : UnsaveApiResult × DB :=
  match db.saves.filter (joinedSaveMatch db u p) with
  | [] => (.notSaved, db)
  | _ :: _ =>
      (.success, { db with saves := db.saves.filter (fun s => !joinedSaveMatch db u p s) })

/-- The explicit-`collection_id` branch of `unsave_post`: 404 on a missing
collection, 403 on an ownership mismatch, else delete the saves of the
exact `(post, collection)` pair, 404 when none matched. -/
def unsaveFromCollection (db : DB) (u p c : Nat) : UnsaveApiResult × DB :=
  match db.collections.find? (fun col => col.id == c) with
  | none => (.notFoundCollection, db)
  | some col =>
      if col.user_id == u then
        match db.saves.filter (fun s => s.post_id == p && s.collection_id == c) with
        | [] => (.notSaved, db)
        | _ :: _ =>
            (.success, { db with
                         saves := db.saves.filter (fun s => !(s.post_id == p && s.collection_id == c)) })
      else (.unauthorized, db)

/-- The `POST /api/unsave/<post_id>` handler (`unsave_post` in `routes.py`). -/
def unsavePost (db : DB) (u p : Nat) (cid : Option Nat) : UnsaveApiResult × DB :=
  match cid with
  | none => unsaveAllForUser db u p
  | some c => if c == 0 then unsaveAllForUser db u p else unsaveFromCollection db u p c

/-- `@login_required`: the calling identity is a registered user. -/
def userExists (db : DB) (u : Nat) : Prop := ∃ usr ∈ db.users, usr.id = u

instance (db : DB) (u : Nat) : Decidable (userExists db u) :=
  inferInstanceAs (Decidable (∃ usr ∈ db.users, usr.id = u))

/-- The databases reachable from the empty database through the API
handlers. Mutating handlers other than registration sit behind
`@login_required`, so their acting user is a registered one. -/
inductive Reachable : DB → Prop
  | init : Reachable initDB
  | register (db : DB) (username email password : String) :
      Reachable db → Reachable (Cosmo.register db username email password).2
  | upload (db : DB) (u : Nat) :
      Reachable db → userExists db u → Reachable (createPost db u)
  | save (db : DB) (u p : Nat) (cid : Option Nat) :
      Reachable db → userExists db u → Reachable (savePost db u p cid).2
  | unsave (db : DB) (u p : Nat) (cid : Option Nat) :
      Reachable db → userExists db u → Reachable (unsavePost db u p cid).2

/-! ## Invariants of the relationship model -/

/-- No two `Save` rows share the same `(post, collection)` pair. -/
def SavesDistinct (db : DB) : Prop :=
  db.saves.Pairwise (fun s t => ¬(s.post_id = t.post_id ∧ s.collection_id = t.collection_id))

/-- The collections of `uid` named `"Saved"`. -/
def savedCollections (db : DB) (uid : Nat) : List Collection :=
  db.collections.filter (savedPred uid)

/-- Every registered user owns exactly one `"Saved"` collection. -/
def DefaultUnique (db : DB) : Prop :=
  ∀ u ∈ db.users, (savedCollections db u.id).length = 1

/-- Every collection belongs to a registered user. -/
def CollectionsOwned (db : DB) : Prop :=
  ∀ c ∈ db.collections, ∃ u ∈ db.users, u.id = c.user_id

/-- User ids stay below the autoincrement counter. -/
def UserIdsBounded (db : DB) : Prop :=
  ∀ u ∈ db.users, u.id < db.nextUserId

def Inv (db : DB) : Prop :=
  SavesDistinct db ∧ DefaultUnique db ∧ CollectionsOwned db ∧ UserIdsBounded db

/-! ## Storage backends (`cloudinary_storage.py`, `supabase_client.py`)

The external calls (Cloudinary SDK upload, Supabase Python client upload,
raw HTTP fallback) are modelled by parameters carrying their outcome; each
upload function additionally reports how many client calls and how many
raw-HTTP fallback calls it performed, so that "no-op" and "one fallback"
are statable. -/

/-- Result of an upload together with the observable external activity:
`providerCalls` counts SDK/Python-client upload invocations,
`httpFallbackCalls` counts raw HTTP fallback requests. -/
structure UploadTrace (α : Type) where
  result : Option α
  providerCalls : Nat
  httpFallbackCalls : Nat
  deriving DecidableEq, Repr

/-- Python truthiness of an environment variable: set and non-empty. -/
def envSet : Option String → Bool
  | none => false
  | some s => !(s == "")

/-- The `CloudinaryStorage` singleton: `is_configured` is true exactly when
all three `CLOUDINARY_*` environment variables are truthy. -/
structure CloudinaryStorage where
  is_configured : Bool
  deriving DecidableEq, Repr

def CloudinaryStorage.ofEnv (cloud_name api_key api_secret : Option String) : CloudinaryStorage :=
  ⟨envSet cloud_name && envSet api_key && envSet api_secret⟩

/-- `CloudinaryStorage.is_allowed_file` — same body as
`filesystem_storage.allowed_file`; the two modules duplicate it. -/
def CloudinaryStorage.is_allowed_file (_ : CloudinaryStorage) (filename : String) : Bool :=
  allowed_file filename

/-- What `cloudinary.uploader.upload` returned; `none` models the call
raising. -/
structure CloudinaryUploadResponse where
  secure_url : String
  resource_type : String
  deriving DecidableEq, Repr

/-- `CloudinaryStorage.upload_file`: refuse immediately when
unconfigured (returning the failure value `(None, None)` without touching
the provider); otherwise one SDK call, whose exception is caught and
converted to the same failure value. There is no raw-HTTP fallback in this
backend. -/
def CloudinaryStorage.upload_file (st : CloudinaryStorage)
    (provider : Option CloudinaryUploadResponse) : UploadTrace (String × String) :=
  if !st.is_configured then ⟨none, 0, 0⟩
  else
    match provider with
    | none => ⟨none, 1, 0⟩
    | some resp =>
        ⟨some (resp.secure_url, if resp.resource_type == "image" then "image" else "video"), 1, 0⟩

/-- The `SUPABASE_URL` / `SUPABASE_KEY` environment. -/
structure SupabaseEnv where
  supabase_url : Option String
  supabase_key : Option String
  deriving DecidableEq, Repr

/-- `SupabaseClient.__init__` keeps `self.supabase = None` unless both
environment variables are truthy. -/
def SupabaseClient.clientInitialized (env : SupabaseEnv) : Bool :=
  envSet env.supabase_url && envSet env.supabase_key

/-- The public URL built by the raw-HTTP fallback branch. -/
def supabasePublicUrl (env : SupabaseEnv) (file_path : String) : String :=
  (env.supabase_url.getD "") ++ "/storage/v1/object/public/avatars/" ++ file_path

/-- `SupabaseClient.upload_file`: refuse when the client is uninitialized;
otherwise try the Python client once (`pyClient = some url` is its
successful public URL, `none` its exception), and on failure fall back to
exactly one raw `requests.post` with the same credentials, succeeding only
on HTTP status 200. -/
def SupabaseClient.upload_file (env : SupabaseEnv) (pyClient : Option String)
    (httpStatus : Nat) (file_path : String) : UploadTrace String :=
  if !(SupabaseClient.clientInitialized env) then ⟨none, 0, 0⟩
  else
    match pyClient with
    | some url => ⟨some url, 1, 0⟩
    | none =>
        if httpStatus == 200 then ⟨some (supabasePublicUrl env file_path), 1, 1⟩
        else ⟨none, 1, 1⟩

/-! ## The upload route (`routes.py`, `upload`) -/

inductive UploadResponse
  | disabledPage
  | noFilePart
  | noSelectedFile
  | typeNotAllowed
  | storageUnavailable
  | created (file_url file_type : String)
  deriving DecidableEq, Repr

structure UploadRequest where
  hasFilePart : Bool
  filename : String
  deriving DecidableEq, Repr

/-- The `POST /upload` handler: `UPLOADS_ENABLED = cloudinary_storage.is_configured`
is checked before anything else; only the `created` response inserts a
`Post` row. -/
def upload (st : CloudinaryStorage) (req : UploadRequest)
    (provider : Option CloudinaryUploadResponse) :
    UploadResponse × UploadTrace (String × String) :=
  if !st.is_configured then (.disabledPage, ⟨none, 0, 0⟩)
  else if !req.hasFilePart then (.noFilePart, ⟨none, 0, 0⟩)
  else if req.filename == "" then (.noSelectedFile, ⟨none, 0, 0⟩)
  else if st.is_allowed_file req.filename then
    let tr := st.upload_file provider
    match tr.result with
    | some (url, ft) => (.created url ft, tr)
    | none => (.storageUnavailable, tr)
  else (.typeNotAllowed, ⟨none, 0, 0⟩)

/-! ## Concrete databases used to instantiate the theorems -/

/-- Registration of alice from the specification's concrete scenario. -/
def dbAlice : DB := (register initDB "alice" "alice@x.com" "password123").2

/-- … with one uploaded post. -/
def dbAlicePost : DB := createPost dbAlice 1

/-- … with that post saved to the default collection. -/
def dbAliceSaved : DB := (savePost dbAlicePost 1 1 none).2

/-- A hand-built database where user 1 saved post 1 into two different
collections (the API of the source creates only `"Saved"` collections, so
a second collection is written directly). -/
def dbTwoCollections : DB :=
  ⟨[⟨1, "alice", "alice@x.com"⟩],
   [⟨1, 1⟩],
   [⟨1, "Saved", "Your saved pins", 1⟩, ⟨2, "Inspiration", "", 1⟩],
   [⟨1, 1, 1⟩, ⟨2, 1, 2⟩],
   2, 2, 3, 3⟩

/-- A database owned by two users, for the ownership-error theorems:
collection 2 belongs to user 2. -/
def dbTwoUsers : DB :=
  ⟨[⟨1, "alice", "alice@x.com"⟩, ⟨2, "bob", "bob@x.com"⟩],
   [⟨1, 1⟩],
   [⟨1, "Saved", "Your saved pins", 1⟩, ⟨2, "Saved", "Your saved pins", 2⟩],
   [],
   3, 2, 3, 1⟩

/-! ### Basic facts about `rsplitDot` -/

theorem takeWhile_append_all {α : Type} {p : α → Bool} {l₁ l₂ : List α}
    (h : ∀ x ∈ l₁, p x = true) :
    (l₁ ++ l₂).takeWhile p = l₁ ++ l₂.takeWhile p := by
  induction l₁ with
  | nil => simp
  | cons a t ih =>
    have ht : ∀ x ∈ t, p x = true := fun x hx => h x (by simp [hx])
    simp [List.takeWhile_cons, h a (by simp), ih ht]

theorem dropWhile_append_all {α : Type} {p : α → Bool} {l₁ l₂ : List α}
    (h : ∀ x ∈ l₁, p x = true) :
    (l₁ ++ l₂).dropWhile p = l₂.dropWhile p := by
  induction l₁ with
  | nil => simp
  | cons a t ih =>
    have ht : ∀ x ∈ t, p x = true := fun x hx => h x (by simp [hx])
    simp [List.dropWhile_cons, h a (by simp), ih ht]

theorem mk_data (s : String) : String.mk s.data = s := by
  cases s with
  | mk l => rfl

theorem mk_append_dot (l₁ l₂ : List Char) :
    String.mk (l₁ ++ '.' :: l₂) = String.mk l₁ ++ "." ++ String.mk l₂ := by
  show String.mk (l₁ ++ '.' :: l₂) = String.mk ((l₁ ++ ['.']) ++ l₂)
  simp

/-- Every list containing `'.'` splits around its last `'.'`. -/
theorem exists_last_dot_split {l : List Char} (h : '.' ∈ l) :
    ∃ l₁ l₂, l = l₁ ++ '.' :: l₂ ∧ '.' ∉ l₂ := by
  induction l with
  | nil => simp at h
  | cons a t ih =>
    by_cases ht : '.' ∈ t
    · rcases ih ht with ⟨l₁, l₂, heq, h2⟩
      exact ⟨a :: l₁, l₂, by rw [heq]; rfl, h2⟩
    · have ha : a = '.' := by
        rcases List.mem_cons.1 h with h1 | h1
        · exact h1.symm
        · exact absurd h1 ht
      exact ⟨[], t, by rw [ha]; simp, ht⟩

/-- With no dot in the string, `rsplit('.', 1)` returns the single piece. -/
theorem rsplitDot_no_dot {s : String} (h : '.' ∉ s.data) : rsplitDot s = [s] := by
  have hall : ∀ c ∈ s.data.reverse, (c != '.') = true := by
    intro c hc
    rcases List.mem_reverse.1 hc with hc
    simp only [bne_iff_ne, ne_eq]
    rintro rfl
    exact h hc
  simp [rsplitDot, List.dropWhile_eq_nil_iff.2 hall]

/-- The last-dot split of `p ++ "." ++ e` with `e` dot-free is `[p, e]`. -/
theorem rsplitDot_append {p e : String} (h : '.' ∉ e.data) :
    rsplitDot (p ++ "." ++ e) = [p, e] := by
  have hdata : (p ++ "." ++ e).data = p.data ++ ['.'] ++ e.data := by
    cases p with
    | mk lp =>
      cases e with
      | mk le => rfl
  have hall : ∀ c ∈ e.data.reverse, (c != '.') = true := by
    intro c hc
    rcases List.mem_reverse.1 hc with hc
    simp only [bne_iff_ne, ne_eq]
    rintro rfl
    exact h hc
  have hrev : (p ++ "." ++ e).data.reverse = e.data.reverse ++ '.' :: p.data.reverse := by
    rw [hdata]
    simp
  have htake : ((p ++ "." ++ e).data.reverse).takeWhile (fun c => c != '.') = e.data.reverse := by
    rw [hrev, takeWhile_append_all hall]
    simp [List.takeWhile_cons]
  have hdrop : ((p ++ "." ++ e).data.reverse).dropWhile (fun c => c != '.') = '.' :: p.data.reverse := by
    rw [hrev, dropWhile_append_all hall]
    simp [List.dropWhile_cons]
  simp only [rsplitDot, htake, hdrop]
  simp [mk_data]

/-- With a dot present, `rsplit('.', 1)` splits at the last dot: the second
piece is dot-free and the pieces reassemble to the input. -/
theorem rsplitDot_dot {s : String} (h : '.' ∈ s.data) :
    ∃ p e, rsplitDot s = [p, e] ∧ s = p ++ "." ++ e ∧ '.' ∉ e.data := by
  rcases exists_last_dot_split h with ⟨l₁, l₂, heq, h2⟩
  have hs : s = String.mk l₁ ++ "." ++ String.mk l₂ := by
    rw [← mk_data s, heq, mk_append_dot]
  refine ⟨String.mk l₁, String.mk l₂, ?_, hs, h2⟩
  rw [hs]
  exact rsplitDot_append h2

theorem lastExt_no_dot {s : String} (h : '.' ∉ s.data) : lastExt s = none := by
  simp [lastExt, rsplitDot_no_dot h]

theorem lastExt_dot {s : String} (h : '.' ∈ s.data) :
    ∃ p e, lastExt s = some e ∧ s = p ++ "." ++ e ∧ '.' ∉ e.data := by
  rcases rsplitDot_dot h with ⟨p, e, hsplit, happ, hfree⟩
  exact ⟨p, e, by simp [lastExt, hsplit], happ, hfree⟩

theorem lastExt_append {p e : String} (h : '.' ∉ e.data) :
    lastExt (p ++ "." ++ e) = some e := by
  simp [lastExt, rsplitDot_append h]

theorem dot_mem_append (p e : String) : '.' ∈ (p ++ "." ++ e).data := by
  have hdata : (p ++ "." ++ e).data = p.data ++ ['.'] ++ e.data := by
    cases p with
    | mk lp =>
      cases e with
      | mk le => rfl
  rw [hdata]
  simp

/-! ### Facts about the classification helpers -/

theorem allowed_file_ext {f : String} (h : allowed_file f = true) :
    ∃ e, lastExt f = some e ∧ pyLower e ∈ ALLOWED_EXTENSIONS := by
  rw [allowed_file] at h
  rcases Bool.and_eq_true_iff.1 h with ⟨hdot, hmatch⟩
  have hmem : '.' ∈ f.data := by simpa using hdot
  rcases lastExt_dot hmem with ⟨p, e, hext, _, _⟩
  rw [hext] at hmatch
  exact ⟨e, hext, by simpa using hmatch⟩

theorem get_file_type_eq {f e : String} (h : lastExt f = some e) :
    get_file_type f =
      (if ["jpg", "jpeg", "png", "gif"].contains (pyLower e) then .ok (some "image")
       else if ["mp4", "mov", "webm"].contains (pyLower e) then .ok (some "video")
       else .ok none) := by
  simp [get_file_type, h]

theorem get_file_type_of_allowed {f : String} (h : allowed_file f = true) :
    get_file_type f = .ok (some "image") ∨ get_file_type f = .ok (some "video") := by
  rcases allowed_file_ext h with ⟨e, hext, hmem⟩
  rw [get_file_type_eq hext]
  simp only [ALLOWED_EXTENSIONS, List.mem_cons, List.not_mem_nil, or_false] at hmem
  rcases hmem with h1 | h1 | h1 | h1 | h1 | h1 | h1 <;> rw [h1] <;> simp

/-! ### Frame lemmas for the save/unsave operations -/

theorem ensureDefault_frame (db : DB) (u : Nat) :
    (ensureDefaultCollection db u).2.posts = db.posts ∧
    (ensureDefaultCollection db u).2.saves = db.saves ∧
    (ensureDefaultCollection db u).2.users = db.users ∧
    (ensureDefaultCollection db u).2.nextSaveId = db.nextSaveId := by
  rw [ensureDefaultCollection]
  rcases db.collections.find? (savedPred u) with _ | d <;> simp

theorem resolveTarget_frame (db : DB) (u : Nat) (cid : Option Nat) :
    (resolveTarget db u cid).2.posts = db.posts ∧
    (resolveTarget db u cid).2.saves = db.saves ∧
    (resolveTarget db u cid).2.users = db.users ∧
    (resolveTarget db u cid).2.nextSaveId = db.nextSaveId := by
  rcases cid with _ | c
  · exact ensureDefault_frame db u
  · rw [resolveTarget]
    by_cases hc : c == 0
    · rw [if_pos hc]
      exact ensureDefault_frame db u
    · rw [if_neg hc]
      exact ⟨rfl, rfl, rfl, rfl⟩

theorem find_saved_of_length_one {db : DB} {u : Nat}
    (h : (savedCollections db u).length = 1) :
    ∃ d, db.collections.find? (savedPred u) = some d := by
  have hne : savedCollections db u ≠ [] := by
    intro h0
    rw [h0] at h
    simp at h
  rcases List.exists_mem_of_ne_nil _ hne with ⟨c, hc⟩
  rcases List.mem_filter.1 hc with ⟨hmem, hpred⟩
  have := List.find?_isSome.2 ⟨c, hmem, hpred⟩
  rcases hfind : db.collections.find? (savedPred u) with _ | d
  · rw [hfind] at this
    simp at this
  · exact ⟨d, rfl⟩

theorem ensureDefault_of_found {db : DB} {u : Nat} {d : Collection}
    (h : db.collections.find? (savedPred u) = some d) :
    ensureDefaultCollection db u = (d.id, db) := by
  simp [ensureDefaultCollection, h]

/-- With the default-collection invariant and a registered caller, the
resolution step never mutates the database. -/
theorem resolveTarget_of_inv {db : DB} {u : Nat}
    (hd : DefaultUnique db) (hu : userExists db u) (cid : Option Nat) :
    ∃ c, resolveTarget db u cid = (c, db) := by
  rcases hu with ⟨usr, hmem, hid⟩
  have h1 : (savedCollections db u).length = 1 := by
    rw [← hid]
    exact hd usr hmem
  rcases find_saved_of_length_one h1 with ⟨d, hfind⟩
  rcases cid with _ | c
  · exact ⟨d.id, by rw [resolveTarget, ensureDefault_of_found hfind]⟩
  · by_cases hc : c == 0
    · exact ⟨d.id, by rw [resolveTarget, if_pos hc, ensureDefault_of_found hfind]⟩
    · exact ⟨c, by rw [resolveTarget, if_neg hc]⟩

/-- After a resolution produced `(c, db')`, resolving again from any
database with the same collection table yields the same target id and no
mutation. -/
theorem resolveTarget_stable {db db' : DB} {u : Nat} {cid : Option Nat} {c : Nat}
    (h : resolveTarget db u cid = (c, db'))
    (db2 : DB) (hcol : db2.collections = db'.collections) :
    resolveTarget db2 u cid = (c, db2) := by
  have hensure : ∀ (hfalsy : ensureDefaultCollection db u = (c, db')),
      ensureDefaultCollection db2 u = (c, db2) := by
    intro hfalsy
    rw [ensureDefaultCollection] at hfalsy
    rcases hfind : db.collections.find? (savedPred u) with _ | d
    · rw [hfind] at hfalsy
      simp only at hfalsy
      rcases Prod.mk.injEq .. ▸ hfalsy with ⟨hc, hdb⟩
      have hall : ∀ x ∈ db.collections, ¬ savedPred u x := fun x hx => by
        simpa using List.find?_eq_none.1 hfind x hx
      have hcol2 : db2.collections =
          db.collections ++ [⟨db.nextCollectionId, "Saved", "Your saved pins", u⟩] := by
        rw [hcol, ← hdb]
      have hfind2 : db2.collections.find? (savedPred u) =
          some ⟨db.nextCollectionId, "Saved", "Your saved pins", u⟩ := by
        rw [hcol2, List.find?_append]
        rw [hfind]
        simp [savedPred]
      rw [ensureDefaultCollection, hfind2]
      simp [hc]
    · rw [hfind] at hfalsy
      simp only at hfalsy
      rcases Prod.mk.injEq .. ▸ hfalsy with ⟨hc, hdb⟩
      have hfind2 : db2.collections.find? (savedPred u) = some d := by
        rw [hcol, ← hdb, hfind]
      rw [ensureDefaultCollection, hfind2]
      simp [hc]
  rcases cid with _ | cv
  · rw [resolveTarget] at h ⊢
    exact hensure h
  · rw [resolveTarget] at h ⊢
    by_cases hc0 : cv == 0
    · rw [if_pos hc0] at h ⊢
      exact hensure h
    · rw [if_neg hc0] at h ⊢
      rcases Prod.mk.injEq .. ▸ h with ⟨hc, _⟩
      rw [hc]

/-! ### Equation lemmas for `savePost` -/

theorem savePost_eq_noPost {db : DB} {u p : Nat} {cid : Option Nat}
    (hp : db.posts.find? (fun q => q.id == p) = none) :
    savePost db u p cid = (.notFoundPost, db) := by
  simp [savePost, hp]

theorem savePost_eq_resolved {db db1 : DB} {u p c : Nat} {cid : Option Nat} {post : Post}
    (hp : db.posts.find? (fun q => q.id == p) = some post)
    (hrc : resolveTarget db u cid = (c, db1)) :
    savePost db u p cid = savePostResolved u p c db1 := by
  simp [savePost, hp, hrc]

/-! ### Preservation of the invariants -/

theorem inv_initDB : Inv initDB := by
  refine ⟨?_, ?_, ?_, ?_⟩ <;>
    simp [initDB, SavesDistinct, DefaultUnique, CollectionsOwned, UserIdsBounded]

theorem register_success_inv {db : DB} (hinv : Inv db) (un em : String) :
    Inv { db with
          users := db.users ++ [⟨db.nextUserId, un, em⟩],
          nextUserId := db.nextUserId + 1,
          collections := db.collections ++
            [⟨db.nextCollectionId, "Saved", "Your saved pins", db.nextUserId⟩],
          nextCollectionId := db.nextCollectionId + 1 } := by
  obtain ⟨hs, hd, ho, hb⟩ := hinv
  refine ⟨hs, ?_, ?_, ?_⟩
  · -- DefaultUnique
    intro v hv
    have hfil : savedCollections
        { db with
          users := db.users ++ [⟨db.nextUserId, un, em⟩],
          nextUserId := db.nextUserId + 1,
          collections := db.collections ++
            [⟨db.nextCollectionId, "Saved", "Your saved pins", db.nextUserId⟩],
          nextCollectionId := db.nextCollectionId + 1 } v.id
        = savedCollections db v.id ++
          List.filter (savedPred v.id)
            [⟨db.nextCollectionId, "Saved", "Your saved pins", db.nextUserId⟩] := by
      rw [savedCollections, savedCollections]
      exact List.filter_append ..
    rw [hfil]
    rcases List.mem_append.1 hv with hv | hv
    · -- previously registered user: the new collection is not theirs
      have hne : v.id ≠ db.nextUserId := Nat.ne_of_lt (hb v hv)
      have hzero : List.filter (savedPred v.id)
          [⟨db.nextCollectionId, "Saved", "Your saved pins", db.nextUserId⟩] = [] := by
        rw [List.filter_eq_nil_iff]
        intro a ha
        rw [List.mem_singleton] at ha
        subst ha
        simp [savedPred]
        intro hcon
        exact hne hcon.symm
      rw [hzero, List.append_nil]
      exact hd v hv
    · -- the freshly registered user: no prior collection can be theirs
      rw [List.mem_singleton] at hv
      subst hv
      have hold : savedCollections db db.nextUserId = [] := by
        rw [savedCollections, List.filter_eq_nil_iff]
        intro a ha hpred
        rcases ho a ha with ⟨w, hw, hwid⟩
        have hlt := hb w hw
        simp only [savedPred, Bool.and_eq_true, beq_iff_eq] at hpred
        omega
      rw [hold]
      simp [savedPred]
  · -- CollectionsOwned
    intro col hcol
    rcases List.mem_append.1 hcol with hcol | hcol
    · rcases ho col hcol with ⟨w, hw, hwid⟩
      exact ⟨w, List.mem_append.2 (Or.inl hw), hwid⟩
    · rw [List.mem_singleton] at hcol
      subst hcol
      exact ⟨⟨db.nextUserId, un, em⟩, List.mem_append.2 (Or.inr (List.mem_singleton.2 rfl)), rfl⟩
  · -- UserIdsBounded
    intro v hv
    rcases List.mem_append.1 hv with hv | hv
    · exact Nat.lt_succ_of_lt (hb v hv)
    · rw [List.mem_singleton] at hv
      subst hv
      exact Nat.lt_succ_self _

theorem register_inv {db : DB} (hinv : Inv db) (un em pw : String) :
    Inv (register db un em pw).2 := by
  rw [register]
  split
  · exact hinv
  · split
    · exact hinv
    · split
      · exact hinv
      · split
        · exact hinv
        · exact register_success_inv hinv un em

theorem createPost_inv {db : DB} (hinv : Inv db) (u : Nat) : Inv (createPost db u) :=
  hinv

theorem savePostResolved_inv {db : DB} (hinv : Inv db) (u p c : Nat) :
    Inv (savePostResolved u p c db).2 := by
  obtain ⟨hs, hd, ho, hb⟩ := hinv
  rw [savePostResolved]
  rcases hfind : db.collections.find? (fun col => col.id == c) with _ | col
  · simp only [hfind]
    exact ⟨hs, hd, ho, hb⟩
  · simp only [hfind]
    by_cases howner : (col.user_id == u) = true
    · rw [if_pos howner]
      rcases hdup : db.saves.find? (fun s => s.post_id == p && s.collection_id == c)
        with _ | s0
      · simp only [hdup]
        -- fresh pair: the appended save collides with nothing
        refine ⟨List.pairwise_append.2 ⟨hs, by simp, ?_⟩, hd, ho, hb⟩
        intro a ha b hb0
        rw [List.mem_singleton] at hb0
        subst hb0
        have h0 := List.find?_eq_none.1 hdup a ha
        simp only [Bool.and_eq_true, beq_iff_eq, not_and] at h0
        intro hcon
        exact h0 hcon.1 hcon.2
      · simp only [hdup]
        exact ⟨hs, hd, ho, hb⟩
    · rw [if_neg howner]
      exact ⟨hs, hd, ho, hb⟩

theorem savePost_inv {db : DB} (hinv : Inv db) {u : Nat} (hu : userExists db u)
    (p : Nat) (cid : Option Nat) :
    Inv (savePost db u p cid).2 := by
  rcases hp : db.posts.find? (fun q => q.id == p) with _ | post
  · rw [savePost_eq_noPost hp]
    exact hinv
  · rcases resolveTarget_of_inv hinv.2.1 hu cid with ⟨c, hrc⟩
    rw [savePost_eq_resolved hp hrc]
    exact savePostResolved_inv hinv u p c

theorem unsaveAllForUser_inv {db : DB} (hinv : Inv db) (u p : Nat) :
    Inv (unsaveAllForUser db u p).2 := by
  obtain ⟨hs, hd, ho, hb⟩ := hinv
  rw [unsaveAllForUser]
  rcases hm : db.saves.filter (joinedSaveMatch db u p) with _ | ⟨s0, rest⟩
  · simp only [hm]
    exact ⟨hs, hd, ho, hb⟩
  · simp only [hm]
    exact ⟨List.Pairwise.sublist (List.filter_sublist _) hs, hd, ho, hb⟩

theorem unsaveFromCollection_inv {db : DB} (hinv : Inv db) (u p c : Nat) :
    Inv (unsaveFromCollection db u p c).2 := by
  obtain ⟨hs, hd, ho, hb⟩ := hinv
  rw [unsaveFromCollection]
  rcases hfind : db.collections.find? (fun col => col.id == c) with _ | col
  · simp only [hfind]
    exact ⟨hs, hd, ho, hb⟩
  · simp only [hfind]
    by_cases howner : (col.user_id == u) = true
    · rw [if_pos howner]
      rcases hm : db.saves.filter (fun s => s.post_id == p && s.collection_id == c)
        with _ | ⟨s0, rest⟩
      · simp only [hm]
        exact ⟨hs, hd, ho, hb⟩
      · simp only [hm]
        exact ⟨List.Pairwise.sublist (List.filter_sublist _) hs, hd, ho, hb⟩
    · rw [if_neg howner]
      exact ⟨hs, hd, ho, hb⟩

theorem unsavePost_inv {db : DB} (hinv : Inv db) (u p : Nat) (cid : Option Nat) :
    Inv (unsavePost db u p cid).2 := by
  rcases cid with _ | c
  · exact unsaveAllForUser_inv hinv u p
  · rw [unsavePost]
    by_cases hc : (c == 0) = true
    · rw [if_pos hc]
      exact unsaveAllForUser_inv hinv u p
    · rw [if_neg hc]
      exact unsaveFromCollection_inv hinv u p c

/-- A successful save appends exactly one `Save` row, and repeating the
same call immediately afterwards is rejected as a conflict without
touching the database (over an arbitrary starting database). -/
theorem savePost_repeat (db : DB) (u p : Nat) (cid : Option Nat)
    (h : (savePost db u p cid).1 = .success) :
    (savePost db u p cid).2.saves.length = db.saves.length + 1 ∧
    (savePost (savePost db u p cid).2 u p cid).1 = .conflict ∧
    (savePost (savePost db u p cid).2 u p cid).2 = (savePost db u p cid).2 := by
  rcases hp : db.posts.find? (fun q => q.id == p) with _ | post
  · rw [savePost_eq_noPost hp] at h
    simp at h
  rcases hrc : resolveTarget db u cid with ⟨c, db1⟩
  have hfr := resolveTarget_frame db u cid
  rw [hrc] at hfr
  obtain ⟨hposts, hsaves, husers, hnsid⟩ := hfr
  rw [savePost_eq_resolved hp hrc] at h ⊢
  rw [savePostResolved] at h
  rcases hfind : db1.collections.find? (fun col => col.id == c) with _ | col
  · simp only [hfind] at h
    simp at h
  simp only [hfind] at h
  by_cases howner : (col.user_id == u) = true
  swap
  · rw [if_neg howner] at h
    simp at h
  rw [if_pos howner] at h
  rcases hdup : db1.saves.find? (fun s => s.post_id == p && s.collection_id == c) with _ | s0
  swap
  · simp only [hdup] at h
    simp at h
  set db2 : DB := { db1 with
                    saves := db1.saves ++ [⟨db1.nextSaveId, p, c⟩],
                    nextSaveId := db1.nextSaveId + 1 } with hdb2
  have heval : savePostResolved u p c db1 = (.success, db2) := by
    rw [savePostResolved]
    simp only [hfind]
    rw [if_pos howner]
    simp only [hdup]
  have hp2 : db2.posts.find? (fun q => q.id == p) = some post := by
    show db1.posts.find? (fun q => q.id == p) = some post
    rw [hposts]
    exact hp
  have hres2 : resolveTarget db2 u cid = (c, db2) :=
    resolveTarget_stable hrc db2 rfl
  have hdup2 : db2.saves.find? (fun s => s.post_id == p && s.collection_id == c)
      = some ⟨db1.nextSaveId, p, c⟩ := by
    show List.find? (fun s => s.post_id == p && s.collection_id == c)
        (db1.saves ++ [(⟨db1.nextSaveId, p, c⟩ : Save)]) = some ⟨db1.nextSaveId, p, c⟩
    rw [List.find?_append, hdup]
    simp
  have heval2 : savePostResolved u p c db2 = (.conflict, db2) := by
    rw [savePostResolved]
    have hfind2 : db2.collections.find? (fun col => col.id == c) = some col := hfind
    simp only [hfind2]
    rw [if_pos howner]
    simp only [hdup2]
  refine ⟨?_, ?_, ?_⟩
  · rw [heval]
    show (db1.saves ++ [(⟨db1.nextSaveId, p, c⟩ : Save)]).length = db.saves.length + 1
    rw [hsaves]
    simp
  · rw [heval]
    show (savePost db2 u p cid).1 = .conflict
    rw [savePost_eq_resolved hp2 hres2, heval2]
  · rw [heval]
    show (savePost db2 u p cid).2 = db2
    rw [savePost_eq_resolved hp2 hres2, heval2]

/-! ### The default collection, ensured twice -/

theorem ensureDefault_once_of_one {db : DB} {uid : Nat}
    (h : (savedCollections db uid).length = 1) :
    (ensureDefaultCollection db uid).2 = db := by
  rcases find_saved_of_length_one h with ⟨d, hf⟩
  rw [ensureDefault_of_found hf]

theorem ensureDefault_creates {db : DB} {uid : Nat}
    (h : savedCollections db uid = []) :
    (savedCollections (ensureDefaultCollection db uid).2 uid).length = 1 := by
  have hfind : db.collections.find? (savedPred uid) = none := by
    rw [List.find?_eq_none]
    intro c hc hpred
    have hmem : c ∈ savedCollections db uid := List.mem_filter.2 ⟨hc, hpred⟩
    rw [h] at hmem
    simp at hmem
  rw [ensureDefaultCollection]
  simp only [hfind]
  show (List.filter (savedPred uid)
      (db.collections ++ [⟨db.nextCollectionId, "Saved", "Your saved pins", uid⟩])).length = 1
  rw [List.filter_append]
  have h1 : db.collections.filter (savedPred uid) = [] := h
  rw [h1]
  simp [savedPred]

/-- Under the invariants, any user id owns at most one `"Saved"`
collection (zero when the id is unregistered). -/
theorem savedCount_le_one {db : DB} (hinv : Inv db) (uid : Nat) :
    (savedCollections db uid).length ≤ 1 := by
  by_cases hu : userExists db uid
  · rcases hu with ⟨usr, hm, hid⟩
    rw [← hid]
    exact le_of_eq (hinv.2.1 usr hm)
  · have hnil : savedCollections db uid = [] := by
      rw [savedCollections, List.filter_eq_nil_iff]
      intro c hc hpred
      rcases hinv.2.2.1 c hc with ⟨w, hw, hwid⟩
      apply hu
      refine ⟨w, hw, ?_⟩
      simp only [savedPred, Bool.and_eq_true, beq_iff_eq] at hpred
      rw [hwid, hpred.1]
    rw [hnil]
    simp

/-- Calling the default-collection block twice leaves exactly one
`"Saved"` collection for the user, whether or not one existed. -/
theorem ensureDefault_twice {db : DB} {uid : Nat}
    (h : (savedCollections db uid).length ≤ 1) :
    (savedCollections
        ((ensureDefaultCollection ((ensureDefaultCollection db uid).2) uid).2) uid).length = 1 := by
  rcases Nat.le_one_iff_eq_zero_or_eq_one.1 h with h0 | h1
  · have hnil : savedCollections db uid = [] := List.length_eq_zero.1 h0
    have hone := ensureDefault_creates hnil
    rw [ensureDefault_once_of_one hone]
    exact hone
  · rw [ensureDefault_once_of_one h1, ensureDefault_once_of_one h1]
    exact h1

/-- Bridge between the SQL join filter and its logical reading. -/
theorem joinedSaveMatch_iff (db : DB) (u p : Nat) (s : Save) :
    joinedSaveMatch db u p s = true ↔
      (s.post_id = p ∧ ∃ col ∈ db.collections, col.id = s.collection_id ∧ col.user_id = u) := by
  simp [joinedSaveMatch, List.any_eq_true]

/-- Every reachable database satisfies all four invariants. -/
theorem reachable_inv {db : DB} (h : Reachable db) : Inv db := by
  induction h with
  | init => exact inv_initDB
  | register db un em pw hr ih => exact register_inv ih un em pw
  | upload db u hr hu ih => exact createPost_inv ih u
  | save db u p cid hr hu ih => exact savePost_inv ih hu p cid
  | unsave db u p cid hr hu ih => exact unsavePost_inv ih u p cid

/-! ## The claims -/

/-- **C1**: in every state reachable by the API operations no two `Save`
rows share the same `(post, collection)` pair, and a `savePost` for a pair
that already has a `Save` row — here, repeating a just-successful call —
fails with `Conflict` and inserts no new `Save` row (the first success
having added exactly one). -/
theorem save_no_duplicate_pairs (db : DB) (h : Reachable db) :
    SavesDistinct db ∧
    ∀ u p cid, (savePost db u p cid).1 = .success →
      (savePost db u p cid).2.saves.length = db.saves.length + 1 ∧
      (savePost (savePost db u p cid).2 u p cid).1 = .conflict ∧
      (savePost (savePost db u p cid).2 u p cid).2 = (savePost db u p cid).2 :=
  ⟨(reachable_inv h).1, fun u p cid hs => savePost_repeat db u p cid hs⟩

/-- **C1** witness: after registering alice and uploading a post, saving it
succeeds once and conflicts on the repeat, with the save list unchanged. -/
theorem save_no_duplicate_pairs_witness :
    SavesDistinct dbAlicePost ∧
    ((savePost dbAlicePost 1 1 none).2.saves.length = dbAlicePost.saves.length + 1 ∧
     (savePost (savePost dbAlicePost 1 1 none).2 1 1 none).1 = .conflict ∧
     (savePost (savePost dbAlicePost 1 1 none).2 1 1 none).2 = (savePost dbAlicePost 1 1 none).2) := by
  have hr : Reachable dbAlicePost :=
    Reachable.upload dbAlice 1
      (Reachable.register initDB "alice" "alice@x.com" "password123" Reachable.init)
      (by decide)
  exact ⟨(save_no_duplicate_pairs dbAlicePost hr).1,
         (save_no_duplicate_pairs dbAlicePost hr).2 1 1 none (by decide)⟩

/-- **C2**: in every reachable state each registered user owns exactly one
collection named `"Saved"` (the eager registration path and the lazy save
path never duplicate it), and running the default-collection-ensuring step
twice for any user id leaves exactly one `"Saved"` collection. -/
theorem default_collection_unique (db : DB) (h : Reachable db) :
    (∀ u ∈ db.users, (savedCollections db u.id).length = 1) ∧
    (∀ uid, (savedCollections
        ((ensureDefaultCollection ((ensureDefaultCollection db uid).2) uid).2) uid).length = 1) := by
  have hinv := reachable_inv h
  exact ⟨hinv.2.1, fun uid => ensureDefault_twice (savedCount_le_one hinv uid)⟩

/-- **C2** witness: after registration, upload and a save, alice owns
exactly one `"Saved"` collection, and ensuring twice for a fresh id yields
exactly one. -/
theorem default_collection_unique_witness :
    (savedCollections dbAliceSaved 1).length = 1 ∧
    (savedCollections
        ((ensureDefaultCollection ((ensureDefaultCollection dbAliceSaved 7).2) 7).2) 7).length = 1 := by
  have hr : Reachable dbAliceSaved :=
    Reachable.save dbAlicePost 1 1 none
      (Reachable.upload dbAlice 1
        (Reachable.register initDB "alice" "alice@x.com" "password123" Reachable.init)
        (by decide))
      (by decide)
  exact ⟨(default_collection_unique dbAliceSaved hr).1 ⟨1, "alice", "alice@x.com"⟩ (by decide),
         (default_collection_unique dbAliceSaved hr).2 7⟩

/-- **C3**: `unsavePost` with no collection id removes every `Save` of the
post whose collection is owned by the caller — across all of the caller's
collections — and nothing else: removed saves satisfy the ownership
criterion, non-matching saves survive, and no save is added. -/
theorem unsave_omitted_unsaves_everywhere (db : DB) (u p : Nat) :
    (∀ s ∈ db.saves,
        s.post_id = p →
        (∃ col ∈ db.collections, col.id = s.collection_id ∧ col.user_id = u) →
        s ∉ (unsavePost db u p none).2.saves) ∧
    (∀ s ∈ db.saves,
        ¬(s.post_id = p ∧ ∃ col ∈ db.collections, col.id = s.collection_id ∧ col.user_id = u) →
        s ∈ (unsavePost db u p none).2.saves) ∧
    (∀ s ∈ (unsavePost db u p none).2.saves, s ∈ db.saves) := by
  show (∀ s ∈ db.saves, _ → _ → s ∉ (unsaveAllForUser db u p).2.saves) ∧
       (∀ s ∈ db.saves, _ → s ∈ (unsaveAllForUser db u p).2.saves) ∧
       (∀ s ∈ (unsaveAllForUser db u p).2.saves, s ∈ db.saves)
  rw [unsaveAllForUser]
  rcases hm : db.saves.filter (joinedSaveMatch db u p) with _ | ⟨s0, rest⟩
  · simp only [hm]
    have hall := List.filter_eq_nil_iff.1 hm
    refine ⟨?_, ?_, ?_⟩
    · intro s hs hpost hcol
      exact absurd ((joinedSaveMatch_iff db u p s).2 ⟨hpost, hcol⟩) (by simpa using hall s hs)
    · intro s hs _
      exact hs
    · intro s hs
      exact hs
  · simp only [hm]
    refine ⟨?_, ?_, ?_⟩
    · intro s hs hpost hcol hmem
      rcases List.mem_filter.1 hmem with ⟨_, hneg⟩
      rw [(joinedSaveMatch_iff db u p s).2 ⟨hpost, hcol⟩] at hneg
      simp at hneg
    · intro s hs hnot
      refine List.mem_filter.2 ⟨hs, ?_⟩
      cases hmb : joinedSaveMatch db u p s
      · rfl
      · exact absurd ((joinedSaveMatch_iff db u p s).1 hmb) hnot
    · intro s hs
      exact (List.mem_filter.1 hs).1

/-- **C3** witness: post 1, saved by user 1 into two different collections,
loses both `Save` rows in the single call. -/
theorem unsave_omitted_unsaves_everywhere_witness :
    (⟨1, 1, 1⟩ : Save) ∉ (unsavePost dbTwoCollections 1 1 none).2.saves ∧
    (⟨2, 1, 2⟩ : Save) ∉ (unsavePost dbTwoCollections 1 1 none).2.saves :=
  ⟨(unsave_omitted_unsaves_everywhere dbTwoCollections 1 1).1 ⟨1, 1, 1⟩
      (by decide) (by decide) (by decide),
   (unsave_omitted_unsaves_everywhere dbTwoCollections 1 1).1 ⟨2, 1, 2⟩
      (by decide) (by decide) (by decide)⟩

/-- **C4** counterexample: the claim says `classify` returns `none` on a
filename with no extension and never fails there, but `get_file_type` on
the dotless name `"abc"` raises `IndexError` instead of returning `None`. -/
theorem classify_dotless_raises :
    get_file_type "abc" = .error .indexError ∧ get_file_type "abc" ≠ .ok none := by
  exact ⟨by decide, by decide⟩

/-- **C4** (amended): for every filename *containing a dot*, `classify`
returns image for `{jpg, jpeg, png, gif}`, video for `{mp4, mov, webm}`
and none otherwise, exactly as the specification-side classifier; on a
filename with no dot it raises `IndexError` rather than returning none. -/
theorem classify_spec_on_dotted (f : String) :
    ('.' ∈ f.data → get_file_type f = .ok (classifySpec f)) ∧
    ('.' ∉ f.data → get_file_type f = .error .indexError) := by
  constructor
  · intro h
    rcases lastExt_dot h with ⟨p, e, hext, _, _⟩
    have hspec : classifySpec f =
        (if ["jpg", "jpeg", "png", "gif"].contains (pyLower e) then some "image"
         else if ["mp4", "mov", "webm"].contains (pyLower e) then some "video"
         else none) := by
      simp [classifySpec, hext]
    rw [get_file_type_eq hext, hspec]
    by_cases h1 : (["jpg", "jpeg", "png", "gif"].contains (pyLower e)) = true
    · rw [if_pos h1, if_pos h1]
    · rw [if_neg h1, if_neg h1]
      by_cases h2 : (["mp4", "mov", "webm"].contains (pyLower e)) = true
      · rw [if_pos h2, if_pos h2]
      · rw [if_neg h2, if_neg h2]
  · intro h
    rw [get_file_type]
    simp only [lastExt_no_dot h]

/-- **C4** witness: a dotted name agrees with the spec classifier, a
dotless name raises. -/
theorem classify_spec_on_dotted_witness :
    ('.' ∈ ("a.png" : String).data ∧ get_file_type "a.png" = .ok (classifySpec "a.png")) ∧
    ('.' ∉ ("abc" : String).data ∧ get_file_type "abc" = .error .indexError) :=
  ⟨⟨by decide, (classify_spec_on_dotted "a.png").1 (by decide)⟩,
   ⟨by decide, (classify_spec_on_dotted "abc").2 (by decide)⟩⟩

/-- **C5**: an explicit-collection save fails with `NotFound` when no
collection has that id and with `Unauthorized` (403) when every collection
with that id belongs to someone else; in both cases the database — in
particular the `Save` table — is untouched. -/
theorem save_explicit_collection_errors (db : DB) (u p c : Nat) (hc : c ≠ 0)
    (hp : ∃ q ∈ db.posts, q.id = p) :
    ((∀ col ∈ db.collections, col.id ≠ c) →
        savePost db u p (some c) = (.notFoundCollection, db)) ∧
    ((∃ col ∈ db.collections, col.id = c) →
     (∀ col ∈ db.collections, col.id = c → col.user_id ≠ u) →
        savePost db u p (some c) = (.unauthorized, db)) := by
  have hpost : (db.posts.find? (fun q => q.id == p)).isSome := by
    rcases hp with ⟨q, hq, hqid⟩
    exact List.find?_isSome.2 ⟨q, hq, by simpa using hqid⟩
  rcases hpfind : db.posts.find? (fun q => q.id == p) with _ | post
  · rw [hpfind] at hpost
    simp at hpost
  have hrc : resolveTarget db u (some c) = (c, db) := by
    rw [resolveTarget, if_neg (by simpa using hc)]
  rw [savePost_eq_resolved hpfind hrc, savePostResolved]
  constructor
  · intro hnone
    have hfind : db.collections.find? (fun col => col.id == c) = none := by
      rw [List.find?_eq_none]
      intro col hcol
      simpa using hnone col hcol
    simp only [hfind]
  · intro hex hown
    have hsome : (db.collections.find? (fun col => col.id == c)).isSome := by
      rcases hex with ⟨col, hmem, hid⟩
      exact List.find?_isSome.2 ⟨col, hmem, by simpa using hid⟩
    rcases hfind : db.collections.find? (fun col => col.id == c) with _ | col
    · rw [hfind] at hsome
      simp at hsome
    · simp only [hfind]
      have hmem := List.mem_of_find?_eq_some hfind
      have hid : col.id = c := by simpa using List.find?_some hfind
      rw [if_neg (by simpa using hown col hmem hid)]

/-- **C5** witness: saving into the missing collection 99 is 404, saving
into bob's collection 2 as alice is 403, the database unchanged. -/
theorem save_explicit_collection_errors_witness :
    savePost dbTwoUsers 1 1 (some 99) = (.notFoundCollection, dbTwoUsers) ∧
    savePost dbTwoUsers 1 1 (some 2) = (.unauthorized, dbTwoUsers) :=
  ⟨(save_explicit_collection_errors dbTwoUsers 1 1 99 (by decide) (by decide)).1 (by decide),
   (save_explicit_collection_errors dbTwoUsers 1 1 2 (by decide) (by decide)).2
      (by decide) (by decide)⟩

/-- **C6**: when zero `Save` rows match the removal criteria — no save of
the post in any of the caller's collections when the collection id is
omitted, no save in the given (existing, owned) collection when supplied —
`unsavePost` fails with `NotFound` and removes nothing. -/
theorem unsave_zero_matches_404 (db : DB) (u p : Nat) :
    ((∀ s ∈ db.saves,
        ¬(s.post_id = p ∧ ∃ col ∈ db.collections, col.id = s.collection_id ∧ col.user_id = u)) →
      unsavePost db u p none = (.notSaved, db)) ∧
    (∀ c, c ≠ 0 →
      (∃ col ∈ db.collections, col.id = c) →
      (∀ col ∈ db.collections, col.id = c → col.user_id = u) →
      (∀ s ∈ db.saves, ¬(s.post_id = p ∧ s.collection_id = c)) →
      unsavePost db u p (some c) = (.notSaved, db)) := by
  constructor
  · intro hnone
    have hfil : db.saves.filter (joinedSaveMatch db u p) = [] := by
      rw [List.filter_eq_nil_iff]
      intro s hs hmb
      exact hnone s hs ((joinedSaveMatch_iff db u p s).1 hmb)
    show unsaveAllForUser db u p = (.notSaved, db)
    rw [unsaveAllForUser]
    simp only [hfil]
  · intro c hc hex hown hnos
    have heq : unsavePost db u p (some c) = unsaveFromCollection db u p c := by
      rw [unsavePost, if_neg (by simpa using hc)]
    rw [heq, unsaveFromCollection]
    have hsome : (db.collections.find? (fun col => col.id == c)).isSome := by
      rcases hex with ⟨col, hmem, hid⟩
      exact List.find?_isSome.2 ⟨col, hmem, by simpa using hid⟩
    rcases hfind : db.collections.find? (fun col => col.id == c) with _ | col
    · rw [hfind] at hsome
      simp at hsome
    · simp only [hfind]
      have hmem := List.mem_of_find?_eq_some hfind
      have hid : col.id = c := by simpa using List.find?_some hfind
      rw [if_pos (by simpa using hown col hmem hid)]
      have hfil : db.saves.filter (fun s => s.post_id == p && s.collection_id == c) = [] := by
        rw [List.filter_eq_nil_iff]
        intro s hs hsb
        exact hnos s hs (by simpa using hsb)
      simp only [hfil]

/-- **C6** witness: with no saves at all, both forms of the call return the
404 `not saved` response and leave the database intact. -/
theorem unsave_zero_matches_404_witness :
    unsavePost dbTwoUsers 1 1 none = (.notSaved, dbTwoUsers) ∧
    unsavePost dbTwoUsers 1 1 (some 1) = (.notSaved, dbTwoUsers) :=
  ⟨(unsave_zero_matches_404 dbTwoUsers 1 1).1 (by decide),
   (unsave_zero_matches_404 dbTwoUsers 1 1).2 1 (by decide) (by decide) (by decide) (by decide)⟩

/-- **C7**: `is_allowed_file` accepts a filename exactly when it has an
extension (a dot-free suffix after a dot) whose lowercase form lies in
`{jpg, jpeg, png, gif, mp4, mov, webm}`; concretely `"a.exe"` is refused,
`"a.JPG"` is accepted case-insensitively, and `"a.mov"` classifies as
video. -/
theorem is_allowed_file_iff (f : String) :
    (allowed_file f = true ↔
      ∃ p e, f = p ++ "." ++ e ∧ '.' ∉ e.data ∧ pyLower e ∈ ALLOWED_EXTENSIONS) ∧
    allowed_file "a.exe" = false ∧ allowed_file "a.JPG" = true ∧
    get_file_type "a.mov" = .ok (some "video") := by
  refine ⟨⟨?_, ?_⟩, by decide, by decide, by decide⟩
  · intro h
    rw [allowed_file] at h
    rcases Bool.and_eq_true_iff.1 h with ⟨hdot, hmatch⟩
    have hmem : '.' ∈ f.data := by simpa using hdot
    rcases lastExt_dot hmem with ⟨p, e, hext, happ, hfree⟩
    rw [hext] at hmatch
    exact ⟨p, e, happ, hfree, by simpa using hmatch⟩
  · rintro ⟨p, e, rfl, hfree, hmem⟩
    rw [allowed_file]
    refine Bool.and_eq_true_iff.2 ⟨?_, ?_⟩
    · simp [dot_mem_append p e]
    · rw [lastExt_append hfree]
      simpa using hmem

/-- **C7** witness: `"a.JPG"` decomposes into a dot-free allowed extension. -/
theorem is_allowed_file_iff_witness :
    ∃ p e, ("a.JPG" : String) = p ++ "." ++ e ∧ '.' ∉ e.data ∧ pyLower e ∈ ALLOWED_EXTENSIONS :=
  (is_allowed_file_iff "a.JPG").1.mp (by decide)

/-- **C8**: with the backend unconfigured, `upload_file` is a no-op failure
(no provider call, no fallback, `(None, None)` result), and the upload
route checks the configuration flag first, answering the disabled page
without attempting any upload or creating any post. -/
theorem unconfigured_storage_degrades (st : CloudinaryStorage) (req : UploadRequest)
    (provider : Option CloudinaryUploadResponse) (h : st.is_configured = false) :
    st.upload_file provider = ⟨none, 0, 0⟩ ∧
    upload st req provider = (.disabledPage, ⟨none, 0, 0⟩) := by
  constructor
  · simp [CloudinaryStorage.upload_file, h]
  · simp [upload, h]

/-- **C8** witness: with `CLOUDINARY_CLOUD_NAME` missing the storage is
unconfigured, refuses the upload without provider calls, and the route
serves the disabled page. -/
theorem unconfigured_storage_degrades_witness :
    (CloudinaryStorage.ofEnv none (some "key") (some "secret")).is_configured = false ∧
    (CloudinaryStorage.ofEnv none (some "key") (some "secret")).upload_file none = ⟨none, 0, 0⟩ ∧
    upload (CloudinaryStorage.ofEnv none (some "key") (some "secret")) ⟨true, "cat.jpg"⟩ none
      = (.disabledPage, ⟨none, 0, 0⟩) :=
  ⟨by decide,
   (unconfigured_storage_degrades (CloudinaryStorage.ofEnv none (some "key") (some "secret"))
      ⟨true, "cat.jpg"⟩ none (by decide)).1,
   (unconfigured_storage_degrades (CloudinaryStorage.ofEnv none (some "key") (some "secret"))
      ⟨true, "cat.jpg"⟩ none (by decide)).2⟩

/-- **C9** counterexample: the Cloudinary backend — the remote storage
variant the upload route actually uses — makes *no* raw-HTTP fallback when
its client call fails: it reports failure after the one SDK call, so the
fallback count is 0, not 1. -/
theorem cloudinary_upload_no_fallback :
    ((CloudinaryStorage.mk true).upload_file none).result = none ∧
    ((CloudinaryStorage.mk true).upload_file none).providerCalls = 1 ∧
    ((CloudinaryStorage.mk true).upload_file none).httpFallbackCalls ≠ 1 := by
  exact ⟨by decide, by decide, by decide⟩

/-- **C9** (amended): only the Supabase client implements the fallback: on
a Python-client failure it makes exactly one raw-HTTP request with the
same credentials before giving up (reporting failure unless that request
returns 200, with no retry loop), while the Cloudinary backend used by the
upload route never makes a raw-HTTP fallback. -/
theorem supabase_fallback_exactly_once (env : SupabaseEnv) (status : Nat) (fp : String)
    (h : SupabaseClient.clientInitialized env = true) :
    (SupabaseClient.upload_file env none status fp).httpFallbackCalls = 1 ∧
    (SupabaseClient.upload_file env none status fp).providerCalls = 1 ∧
    (status ≠ 200 → (SupabaseClient.upload_file env none status fp).result = none) ∧
    (∀ url, (SupabaseClient.upload_file env (some url) status fp).httpFallbackCalls = 0) ∧
    (∀ st provider, (CloudinaryStorage.upload_file st provider).httpFallbackCalls = 0) := by
  refine ⟨?_, ?_, ?_, ?_, ?_⟩
  · by_cases hs : (status == 200) = true <;> simp [SupabaseClient.upload_file, h, hs]
  · by_cases hs : (status == 200) = true <;> simp [SupabaseClient.upload_file, h, hs]
  · intro hne
    have hs : (status == 200) = false := by simpa using hne
    simp [SupabaseClient.upload_file, h, hs]
  · intro url
    simp [SupabaseClient.upload_file, h]
  · intro st provider
    rcases hcfg : st.is_configured with _ | _ <;> rcases provider with _ | r <;>
      simp [CloudinaryStorage.upload_file, hcfg]

/-- **C9** witness: an initialized client whose Python upload fails makes
its single fallback call and, on a 500, reports failure. -/
theorem supabase_fallback_exactly_once_witness :
    SupabaseClient.clientInitialized ⟨some "https://sb.example", some "anon"⟩ = true ∧
    (SupabaseClient.upload_file ⟨some "https://sb.example", some "anon"⟩ none 500
        "a.jpg").httpFallbackCalls = 1 ∧
    (SupabaseClient.upload_file ⟨some "https://sb.example", some "anon"⟩ none 500
        "a.jpg").result = none :=
  ⟨by decide,
   (supabase_fallback_exactly_once ⟨some "https://sb.example", some "anon"⟩ 500 "a.jpg"
      (by decide)).1,
   (supabase_fallback_exactly_once ⟨some "https://sb.example", some "anon"⟩ 500 "a.jpg"
      (by decide)).2.2.1 (by decide)⟩

/-- **C10**: any filename accepted by `allowed_file` classifies as image or
video — never the unknown result — so the unknown-file-type rejection
branch inside `save_file` is unreachable. -/
theorem allowed_implies_classifiable (sn : String → String) (w : Bool)
    (f : String) (cf : Option String) :
    (allowed_file f = true →
      get_file_type f = .ok (some "image") ∨ get_file_type f = .ok (some "video")) ∧
    save_file sn w f cf ≠ .unknownType := by
  refine ⟨get_file_type_of_allowed, ?_⟩
  by_cases ha : allowed_file f = true
  · rcases get_file_type_of_allowed ha with h | h <;> cases w <;> simp [save_file, ha, h]
  · have ha' : allowed_file f = false := by
      rcases hx : allowed_file f with _ | _
      · rfl
      · exact absurd hx ha
    simp [save_file, ha']

/-- **C10** witness: `"cat.jpg"` is allowed, classifies as an image, and
`save_file` lands in its success branch. -/
theorem allowed_implies_classifiable_witness :
    (get_file_type "cat.jpg" = .ok (some "image") ∨
     get_file_type "cat.jpg" = .ok (some "video")) ∧
    save_file id true "cat.jpg" none ≠ .unknownType :=
  ⟨(allowed_implies_classifiable id true "cat.jpg" none).1 (by decide),
   (allowed_implies_classifiable id true "cat.jpg" none).2⟩

end Cosmo
